import Mathlib

/-!
# Verification of the ECG monitor core (EDF decoder, QRS decoder, playback, heart rate)

Shallow embedding of the Rust sources `edf_parser.rs`, `qrs_parser.rs`,
`main.rs` and `ecg_display.rs`.

Modelling conventions:
* A byte stream is a `List Nat` whose entries are byte values (0..255).
* Rust `f64`/`f32` arithmetic is modelled over `ℚ`.  Every concrete value the
  claims touch (affine calibration at exactly representable inputs, the
  tolerance constants 0.001/0.01/0.1, the interval bounds 0.3/2.0) is exact
  in both `f64` and `ℚ`, so the idealisation does not change any claim.
* `String::from_utf8_lossy` followed by `trim` and numeric parsing is
  modelled directly on the byte level: ASCII whitespace bytes are trimmed and
  the numeric grammars of `u16/u32/i16/f64::from_str` are implemented on
  bytes.  A non-ASCII byte is never a digit and never ASCII whitespace, which
  matches the behaviour of the lossy decoding for every claim (the only
  unmodelled corner is non-ASCII Unicode whitespace and the `inf`/`NaN`
  spellings, which `ℚ` cannot represent; no claim involves them).
* A Rust `Result`/panic is an `Option`: `none` is an `Err` return or a panic.
-/

namespace EcgMonitor

/-- ASCII whitespace, the bytes `char::is_whitespace` accepts in ASCII range
(tab, LF, VT, FF, CR, space). -/
def isWsByte (b : Nat) : Bool :=
  b == 9 || b == 10 || b == 11 || b == 12 || b == 13 || b == 32

/-- `str::trim` modelled on bytes: drop ASCII whitespace on both ends. -/
def trimBytes (bs : List Nat) : List Nat :=
  ((bs.dropWhile isWsByte).reverse.dropWhile isWsByte).reverse

/-- Is the byte an ASCII digit. -/
def isDigitByte (b : Nat) : Bool := 48 ≤ b && b ≤ 57

/-- Numeric value of a run of ASCII digit bytes (most significant first). -/
def digitsVal (bs : List Nat) : Nat :=
  bs.foldl (fun acc b => acc * 10 + (b - 48)) 0

/-- `u16::from_str` / `u32::from_str`: an optional leading `+`, then at least
one digit, rejected when the value exceeds `bound`. -/
def parseUBounded (bound : Nat) (bs : List Nat) : Option Nat :=
  let digits := match bs with
    | 43 :: rest => rest
    | _ => bs
  if digits ≠ [] ∧ digits.all isDigitByte ∧ digitsVal digits ≤ bound then
    some (digitsVal digits)
  else none

/-- `str::parse::<u16>` with overflow rejection. -/
def parseU16 (bs : List Nat) : Option Nat := parseUBounded 65535 bs

/-- `str::parse::<u32>` with overflow rejection. -/
def parseU32 (bs : List Nat) : Option Nat := parseUBounded 4294967295 bs

/-- `str::parse::<i16>`: optional sign, digits, range check on `i16`. -/
def parseI16 (bs : List Nat) : Option Int :=
  match bs with
  | 45 :: rest =>
      if rest ≠ [] ∧ rest.all isDigitByte ∧ digitsVal rest ≤ 32768 then
        some (-(digitsVal rest : Int))
      else none
  | 43 :: rest =>
      if rest ≠ [] ∧ rest.all isDigitByte ∧ digitsVal rest ≤ 32767 then
        some (digitsVal rest : Int)
      else none
  | _ =>
      if bs ≠ [] ∧ bs.all isDigitByte ∧ digitsVal bs ≤ 32767 then
        some (digitsVal bs : Int)
      else none

/-- The optional exponent suffix of the `f64::from_str` grammar: empty means
exponent 0; otherwise `e`/`E`, an optional sign and at least one digit. -/
def parseExpSuffix (bs : List Nat) : Option Int :=
  match bs with
  | [] => some 0
  | e :: rest =>
      if e == 101 || e == 69 then
        match rest with
        | 45 :: ds =>
            if ds ≠ [] ∧ ds.all isDigitByte then some (-(digitsVal ds : Int))
            else none
        | 43 :: ds =>
            if ds ≠ [] ∧ ds.all isDigitByte then some (digitsVal ds : Int)
            else none
        | ds =>
            if ds ≠ [] ∧ ds.all isDigitByte then some (digitsVal ds : Int)
            else none
      else none

/-- Scale a rational by a power of ten (the exponent of a decimal literal). -/
def scalePow10 (q : ℚ) (e : Int) : ℚ :=
  if 0 ≤ e then q * (10 : ℚ) ^ e.toNat else q / (10 : ℚ) ^ (-e).toNat

/-- `f64::from_str` on the finite decimal grammar
`[+-]? (digits [. digits?] | . digits) ([eE][+-]?digits)?`, with the value
taken exactly in `ℚ` (the `inf`/`NaN` spellings are not representable in `ℚ`
and are mapped to a parse failure; no claim involves them). -/
def parseF64 (bs : List Nat) : Option ℚ :=
  let signAndRest : Bool × List Nat := match bs with
    | 45 :: rest => (true, rest)
    | 43 :: rest => (false, rest)
    | _ => (false, bs)
  let neg := signAndRest.1
  let rest := signAndRest.2
  let intPart := rest.takeWhile isDigitByte
  let afterInt := rest.dropWhile isDigitByte
  let build : Nat → Nat → Nat → List Nat → Option ℚ :=
    fun intVal fracVal fracLen suffix =>
      (parseExpSuffix suffix).map fun e =>
        let mag := scalePow10 ((intVal : ℚ) + (fracVal : ℚ) / (10 : ℚ) ^ fracLen) e
        if neg then -mag else mag
  match afterInt with
  | 46 :: afterDot =>
      let fracPart := afterDot.takeWhile isDigitByte
      let afterFrac := afterDot.dropWhile isDigitByte
      if intPart = [] ∧ fracPart = [] then none
      else build (digitsVal intPart) (digitsVal fracPart) fracPart.length afterFrac
  | _ =>
      if intPart = [] then none
      else build (digitsVal intPart) 0 0 afterInt

/-! ## The EDF header (`edf_parser.rs`, `EdfHeader` and `read_header`) -/

/-- `EdfHeader` from `edf_parser.rs`.  Text fields keep the trimmed bytes;
numeric fields are `Nat`/`Int`/`ℚ` models of `u16`/`u32`/`i16`/`f64`. -/
structure EdfHeader where
  version : List Nat
  patient_id : List Nat
  recording_id : List Nat
  start_date : List Nat
  start_time : List Nat
  header_bytes : Nat
  data_format : List Nat
  data_records : Nat
  record_duration : ℚ
  signals : Nat
  signal_labels : List (List Nat)
  transducer_types : List (List Nat)
  physical_dimensions : List (List Nat)
  physical_minimums : List ℚ
  physical_maximums : List ℚ
  digital_minimums : List Int
  digital_maximums : List Int
  prefiltering : List (List Nat)
  samples_per_record : List Nat
  reserved : List (List Nat)
deriving Repr, DecidableEq

/-- The `n` bytes starting at position `pos` (the buffer a successful
`read_exact` fills). -/
def sliceBytes (input : List Nat) (pos n : Nat) : List Nat :=
  (input.drop pos).take n

/-- The trimmed text of the fixed-width field at `pos` of width `n`,
i.e. `String::from_utf8_lossy(&buffer).trim()` after a `read_exact`. -/
def fieldAt (input : List Nat) (pos n : Nat) : List Nat :=
  trimBytes (sliceBytes input pos n)

/-- `EdfReader::read_header`: the fixed 256-byte preamble (version, patient,
recording, date, time, header length, format, record count, record duration,
channel count) followed by the ten per-channel fixed-width arrays, each of
`signals` entries, every numeric field recovered with its documented default
on parse failure.

The source performs one sequential `read_exact` per field and propagates the
first failure with `?`.  The whole sequence of `read_exact`s succeeds exactly
when the stream holds the full `256 + signals * 256` header bytes (the field
widths sum to 256 preamble bytes and 256 bytes per channel), and each field
then sees precisely the slice at its cumulative offset, which is what this
definition computes; when the stream is shorter, some `read_exact` fails and
`read_header` returns `Err`, modelled by `none` (note `256 + signals * 256 ≤
input.length` fails in particular whenever the 256-byte preamble itself is
short, since the parsed `signals` is a `Nat`). -/
def read_header (input : List Nat) : Option EdfHeader :=
  let signals := (parseU16 (fieldAt input 252 4)).getD 1
  if 256 + signals * 256 ≤ input.length then
    some
      { version := fieldAt input 0 8
        patient_id := fieldAt input 8 80
        recording_id := fieldAt input 88 80
        start_date := fieldAt input 168 8
        start_time := fieldAt input 176 8
        header_bytes := (parseU16 (fieldAt input 184 8)).getD 256
        data_format := fieldAt input 192 44
        data_records := (parseU32 (fieldAt input 236 8)).getD 0
        record_duration := (parseF64 (fieldAt input 244 8)).getD 1
        signals := signals
        signal_labels :=
          (List.range signals).map fun i => fieldAt input (256 + i * 16) 16
        transducer_types :=
          (List.range signals).map fun i =>
            fieldAt input (256 + signals * 16 + i * 80) 80
        physical_dimensions :=
          (List.range signals).map fun i =>
            fieldAt input (256 + signals * 96 + i * 8) 8
        physical_minimums :=
          (List.range signals).map fun i =>
            (parseF64 (fieldAt input (256 + signals * 104 + i * 8) 8)).getD (-2048)
        physical_maximums :=
          (List.range signals).map fun i =>
            (parseF64 (fieldAt input (256 + signals * 112 + i * 8) 8)).getD 2047
        digital_minimums :=
          (List.range signals).map fun i =>
            (parseI16 (fieldAt input (256 + signals * 120 + i * 8) 8)).getD (-2048)
        digital_maximums :=
          (List.range signals).map fun i =>
            (parseI16 (fieldAt input (256 + signals * 128 + i * 8) 8)).getD 2047
        prefiltering :=
          (List.range signals).map fun i =>
            fieldAt input (256 + signals * 136 + i * 80) 80
        samples_per_record :=
          (List.range signals).map fun i =>
            (parseU16 (fieldAt input (256 + signals * 216 + i * 8) 8)).getD 360
        reserved :=
          (List.range signals).map fun i =>
            fieldAt input (256 + signals * 224 + i * 32) 32 }
  else none

/-! ## Signal decoding (`edf_parser.rs`, `read_signals` and helpers) -/

/-- `EdfReader::digital_to_physical`: affine calibration of one digital
sample of channel `signal_idx`, zero when the digital range is zero.  The
source indexes the per-channel arrays directly; `read_signals` only calls it
with `signal_idx < signals`, which is in bounds for every header produced by
`read_header`, so the `getD` default is never consulted on those calls. -/
def digital_to_physical (h : EdfHeader) (digital_value : Int) (signal_idx : Nat) : ℚ :=
  let digital_min : ℚ := (h.digital_minimums.getD signal_idx 0 : Int)
  let digital_max : ℚ := (h.digital_maximums.getD signal_idx 0 : Int)
  let physical_min := h.physical_minimums.getD signal_idx 0
  let physical_max := h.physical_maximums.getD signal_idx 0
  let digital_range := digital_max - digital_min
  let physical_range := physical_max - physical_min
  if digital_range = 0 then 0
  else physical_min + ((digital_value : ℚ) - digital_min) / digital_range * physical_range

/-- `read_i16::<LittleEndian>` at position `pos`: two bytes, little endian,
re-interpreted as a signed 16-bit value; `none` is the short-read `Err`. -/
def readI16 (input : List Nat) (pos : Nat) : Option Int :=
  if pos + 2 ≤ input.length then
    let v := input.getD pos 0 + 256 * input.getD (pos + 1) 0
    some (if v < 32768 then (v : Int) else (v : Int) - 65536)
  else none

/-- The innermost loop of `read_signals`: read `count` samples for channel
`signal_idx`, converting each through `digital_to_physical` and appending to
the channel's list `acc`.  Returns the grown list, the new position, and
whether a short read stopped decoding (the `Err(_)` arm). -/
def readSigSamples (h : EdfHeader) (input : List Nat) (signal_idx : Nat) :
    Nat → Nat → List ℚ → List ℚ × Nat × Bool
  | 0, pos, acc => (acc, pos, false)
  | count + 1, pos, acc =>
      match readI16 input pos with
      | some d =>
          readSigSamples h input signal_idx count (pos + 2)
            (acc ++ [digital_to_physical h d signal_idx])
      | none => (acc, pos, true)

/-- The per-record loop of `read_signals`: for each channel index in order,
read that channel's `samples_per_record` samples into its slot of
`all_samples`; stop and report truncation as soon as a short read occurs. -/
def readRecordSignals (h : EdfHeader) (input : List Nat) :
    List Nat → Nat → List (List ℚ) → List (List ℚ) × Nat × Bool
  | [], pos, all_samples => (all_samples, pos, false)
  | signal_idx :: rest, pos, all_samples =>
      let r := readSigSamples h input signal_idx
        (h.samples_per_record.getD signal_idx 0) pos (all_samples.getD signal_idx [])
      let all' := all_samples.set signal_idx r.1
      if r.2.2 then (all', r.2.1, true)
      else readRecordSignals h input rest r.2.1 all'

/-- The outer record loop of `read_signals`: `data_records` passes over all
channels, stopping early at the first truncation. -/
def readRecords (h : EdfHeader) (input : List Nat) :
    Nat → Nat → List (List ℚ) → List (List ℚ)
  | 0, _, all_samples => all_samples
  | records + 1, pos, all_samples =>
      let r := readRecordSignals h input (List.range h.signals) pos all_samples
      if r.2.2 then r.1
      else readRecords h input records r.2.1 r.1

/-- `EdfReader::transpose_samples`: turn per-channel sample lists into
per-sample-index vectors across all channels, zero-padding channels that ran
out early; empty when there are no channels or channel 0 is empty. -/
def transpose_samples (signal_samples : List (List ℚ)) : List (List ℚ) :=
  if signal_samples.isEmpty || (signal_samples.headD []).isEmpty then []
  else
    (List.range (signal_samples.headD []).length).map fun sample_idx =>
      signal_samples.map fun chan => chan.getD sample_idx 0

/-- The per-channel sample lists accumulated by `read_signals` before
transposition: `signals` empty vectors, filled by the record loop starting at
the seek target `header_bytes`. -/
def sigChannels (h : EdfHeader) (input : List Nat) : List (List ℚ) :=
  readRecords h input h.data_records h.header_bytes (List.replicate h.signals [])

/-- `EdfReader::read_signals`: estimate the total sample count from
`samples_per_record[0]` (a panic — modelled `none` — when the channel count
is zero and the vector is empty), seek to `header_bytes`, decode records
until done or truncated, and transpose.  A truncated stream is not an error:
the `Err(_)` arm of the sample read returns `Ok` with what was decoded. -/
def read_signals (h : EdfHeader) (input : List Nat) : Option (List (List ℚ)) :=
  match h.samples_per_record.head? with
  | none => none
  | some _ => some (transpose_samples (sigChannels h input))

/-- `EdfReader::new` followed by `read_signals`: parse the header from the
byte stream, then decode the calibrated sample matrix from the same stream. -/
def decodePipeline (input : List Nat) : Option (List (List ℚ)) :=
  (read_header input).bind fun h => read_signals h input

/-- `EdfReader::get_sample_rate`: `samples_per_record[0] / record_duration`
when the duration is positive and the vector non-empty, else the 360 Hz
default. -/
def get_sample_rate (h : EdfHeader) : ℚ :=
  if 0 < h.record_duration ∧ h.samples_per_record ≠ [] then
    (h.samples_per_record.headD 0 : ℚ) / h.record_duration
  else 360

/-! ## QRS annotation decoding (`qrs_parser.rs`) -/

/-- `QrsReader::is_qrs_annotation`: the closed set of beat type codes, the
numeric MIT-BIH codes 1..12 first, then the ASCII beat letters via
`ann_type as char`. -/
def is_qrs_annotation (ann_type : Nat) : Bool :=
  match ann_type with
  | 1 | 2 | 3 | 4 | 5 | 6 | 7 | 8 | 9 | 10 | 11 | 12 => true
  | _ =>
      let c := Char.ofNat ann_type
      c == 'N' || c == 'L' || c == 'R' || c == 'A' || c == 'a' || c == 'J' ||
      c == 'S' || c == 'V' || c == 'E' || c == 'j' || c == '/' || c == 'f' ||
      c == 'Q'

/-- The window scan of `parse_alternative_format`: step through the contents
four bytes at a time while `i + 4 <= contents.len()`, decode each window as a
little-endian `u32` sample count, convert to seconds through the resolution,
and keep only times in the plausible range `(0, 3600)`. -/
def scanCandidates (res : ℚ) : List Nat → List ℚ
  | b0 :: b1 :: b2 :: b3 :: rest =>
      let time_seconds :=
        ((b0 + 256 * b1 + 65536 * b2 + 16777216 * b3 : Nat) : ℚ) / res
      if 0 < time_seconds ∧ time_seconds < 3600 then
        time_seconds :: scanCandidates res rest
      else scanCandidates res rest
  | _ => []

/-- `Vec::sort_by` with the ascending `partial_cmp` comparator, modelled by
insertion sort: over `ℚ` the comparator is a total order and equal elements
are indistinguishable values, so every (stable) sort returns the same list. -/
def sortAsc (l : List ℚ) : List ℚ :=
  l.insertionSort (· ≤ ·)

/-- The loop of `dedup_by(|a, b| (*a - *b).abs() < 0.001)`: each element is
compared with the last retained one and dropped when within 1 ms. -/
def dedupLoop (last : ℚ) : List ℚ → List ℚ
  | [] => []
  | x :: rest =>
      if |x - last| < 1 / 1000 then dedupLoop last rest
      else x :: dedupLoop x rest

/-- `Vec::dedup_by` over the sorted candidate list. -/
def dedupBy : List ℚ → List ℚ
  | [] => []
  | a :: rest => a :: dedupLoop a rest

/-- The inner loop of the `> 1000` re-filter: each remaining candidate is
pushed exactly when its gap from the last kept timestamp lies in
`[0.3, 2.0]`; with an empty kept list (never reached, the list starts with
one element) nothing is pushed. -/
def refilterLoop : List ℚ → List ℚ → List ℚ
  | [], filtered => filtered
  | time :: rest, filtered =>
      match filtered.getLast? with
      | some last_time =>
          if 3 / 10 ≤ time - last_time ∧ time - last_time ≤ 2 then
            refilterLoop rest (filtered ++ [time])
          else refilterLoop rest filtered
      | none => refilterLoop rest filtered

/-- The `> 1000` re-filter of `parse_alternative_format`: start `filtered`
with the first candidate, then run the interval filter over the rest. -/
def refilter : List ℚ → List ℚ
  | [] => []
  | a :: rest => refilterLoop rest [a]

/-- The tail of `parse_alternative_format` after sort and dedup: when more
than 1000 candidates survive they are re-filtered to plausible beat-to-beat
intervals, keeping the unfiltered list only if the filter came back empty. -/
def altFilterStage (annotations : List ℚ) : List ℚ :=
  if 1000 < annotations.length then
    let filtered := refilter annotations
    if filtered.isEmpty then annotations else filtered
  else annotations

/-- `QrsReader::parse_alternative_format` on in-memory contents: scan 4-byte
windows, sort, dedup within 1 ms, and re-filter when more than 1000
candidates survive. -/
def parse_alternative_format (contents : List Nat) (time_resolution : ℚ) : List ℚ :=
  altFilterStage (dedupBy (sortAsc (scanCandidates time_resolution contents)))

/-! ## Frame assembly and playback (`main.rs`) -/

/-- `SAMPLE_RATE` from `main.rs` (360 Hz nominal ECG rate). -/
def SAMPLE_RATE : ℚ := 360

/-- `DISPLAY_SECONDS` from `main.rs`. -/
def DISPLAY_SECONDS : ℚ := 10

/-- `MAX_SAMPLES = (SAMPLE_RATE * DISPLAY_SECONDS) as usize`. -/
def MAX_SAMPLES : Nat := (SAMPLE_RATE * DISPLAY_SECONDS).floor.toNat

/-- `EcgSample` from `main.rs`. -/
structure EcgSample where
  timestamp : ℚ
  lead1 : ℚ
  lead2 : ℚ
  lead_v1 : ℚ
  is_qrs : Bool
deriving Repr, DecidableEq

/-- The assembly loop of `load_ecg_data`: one `EcgSample` per decoded sample
index, timestamp `i / SAMPLE_RATE`, leads from channels 0/1/2 with a 0.0
default, and the QRS flag set when some annotation is within 10 ms. -/
def assembleFrames (signal_data : List (List ℚ)) (qrs_annotations : List ℚ) :
    List EcgSample :=
  signal_data.enum.map fun p =>
    let timestamp := (p.1 : ℚ) / SAMPLE_RATE
    { timestamp := timestamp
      lead1 := p.2.getD 0 0
      lead2 := p.2.getD 1 0
      lead_v1 := p.2.getD 2 0
      is_qrs := qrs_annotations.any fun qrs_time =>
        decide (|qrs_time - timestamp| < 1 / 100) }

/-- One append of the producer loop in `start_data_thread`: when the shared
window already holds `MAX_SAMPLES` frames the front (oldest) one is popped,
then the new frame is pushed at the back. -/
def appendSample (w : List EcgSample) (sample : EcgSample) : List EcgSample :=
  (if MAX_SAMPLES ≤ w.length then w.drop 1 else w) ++ [sample]

/-- The states the shared sample window can reach: it starts empty and is
only ever mutated by the producer's append step. -/
inductive ReachableWindow : List EcgSample → Prop
  | init : ReachableWindow []
  | step (w : List EcgSample) (s : EcgSample) :
      ReachableWindow w → ReachableWindow (appendSample w s)

/-! ## Heart rate estimation (`ecg_display.rs`, `calculate_heart_rate`) -/

/-- Rust `f64 as i32` on an in-range value: truncation toward zero. -/
def truncToInt (x : ℚ) : Int :=
  if 0 ≤ x then ⌊x⌋ else ⌈x⌉

/-- Rust `f64::round`: round half away from zero. -/
def rustRound (x : ℚ) : Int :=
  if 0 ≤ x then ⌊x + 1 / 2⌋ else ⌈x - 1 / 2⌉

/-- The synthetic fallback branch of `calculate_heart_rate`:
`(76.0 + breathing_effect + random_variation).max(65.0).min(90.0) as i32`.
The two trigonometric wall-clock terms `(t * 0.3).sin() * 2.0` and
`(t * 7.3).sin() * (t * 11.7).cos() * 1.5` are transcendental in the reals,
so they enter the model as the parameters `breathing_effect` and
`random_variation`, universally quantified in the theorems (every bound
proved below holds for all their values, in particular the true ones). -/
def fallbackRate (breathing_effect random_variation : ℚ) : Int :=
  truncToInt (min (max (76 + breathing_effect + random_variation) 65) 90)

/-- The QRS scan of `calculate_heart_rate`: walk the most recent 100 frames
(newest first), compute each flagged frame's absolute time from the wall
clock and the frame's distance from the head, and record it unless an
already-recorded beat time is within 0.1 s. -/
def scanQrsTimes (current_time : ℚ) (samples : List EcgSample)
    (last_qrs_times : List ℚ) : List ℚ :=
  (samples.reverse.take 100).foldl
    (fun acc sample =>
      if sample.is_qrs then
        let pos :=
          (samples.findIdx? fun s => decide (s.timestamp = sample.timestamp)).getD 0
        let qrs_time := current_time - ((samples.length : ℚ) - (pos : ℚ)) / 360
        if acc.any fun t => decide (|t - qrs_time| < 1 / 10) then acc
        else acc ++ [qrs_time]
      else acc)
    last_qrs_times

/-- `EcgDisplay::calculate_heart_rate`: scan recent frames for beats, prune
beat times older than 10 s, and if at least two remain sort them and report
`round(60 / average_interval)`; otherwise fall back to the synthetic band.
Returns the mutated `last_qrs_times` state together with the rate. -/
def calculate_heart_rate (current_time breathing_effect random_variation : ℚ)
    (samples : List EcgSample) (last_qrs_times : List ℚ) : List ℚ × Int :=
  let st1 := scanQrsTimes current_time samples last_qrs_times
  let st2 := st1.filter fun t => decide (current_time - t < 10)
  if 2 ≤ st2.length then
    let sorted := sortAsc st2
    let intervals := (sorted.zip sorted.tail).map fun w => w.2 - w.1
    if intervals.isEmpty then
      (sorted, fallbackRate breathing_effect random_variation)
    else
      let avg_interval := intervals.foldl (· + ·) 0 / (intervals.length : ℚ)
      (sorted, rustRound (60 / avg_interval))
  else (st2, fallbackRate breathing_effect random_variation)

/-! ## Concrete byte streams used to exercise the decoders -/

/-- Byte values of an ASCII string. -/
def ascii (s : String) : List Nat := s.toList.map Char.toNat

/-- A fixed-width ASCII header field, padded on the right with spaces as in
the EDF layout. -/
def padField (s : String) (w : Nat) : List Nat :=
  ascii s ++ List.replicate (w - (ascii s).length) 32

/-- An all-empty header record, used only as the (never consulted) `getD`
default when naming the result of a successful concrete `read_header`. -/
def emptyHeader : EdfHeader :=
  { version := [], patient_id := [], recording_id := [], start_date := []
    start_time := [], header_bytes := 0, data_format := [], data_records := 0
    record_duration := 0, signals := 0, signal_labels := []
    transducer_types := [], physical_dimensions := [], physical_minimums := []
    physical_maximums := [], digital_minimums := [], digital_maximums := []
    prefiltering := [], samples_per_record := [], reserved := [] }

/-- The section-8 synthetic signal file: one channel, one record, four
samples per record, digital range [-100, 100], physical range [-1.0, 1.0],
header offset 512, followed by the digital samples -100, 0, 50, 100 as
little-endian `i16`. -/
def exInputC1 : List Nat :=
  padField ("0") 8 ++ padField ("") 80 ++ padField ("") 80 ++
  padField ("01.01.24") 8 ++ padField ("00.00.00") 8 ++ padField ("512") 8 ++
  padField ("") 44 ++ padField ("1") 8 ++ padField ("1") 8 ++ padField ("1") 4 ++
  padField ("ECG") 16 ++ padField ("") 80 ++ padField ("mV") 8 ++
  padField ("-1.0") 8 ++ padField ("1.0") 8 ++ padField ("-100") 8 ++
  padField ("100") 8 ++ padField ("") 80 ++ padField ("4") 8 ++ padField ("") 32 ++
  [156, 255, 0, 0, 50, 0, 100, 0]

/-- The header parsed from `exInputC1`, named through `getD` so that the
parse equation is definitional. -/
def exHeaderC1 : EdfHeader := (read_header exInputC1).getD emptyHeader

/-- A header byte stream whose samples-per-record field is `0` and whose
record duration is the positive `1`: a parsed header with a non-positive
`samples_per_record[0]`. -/
def exInputC3 : List Nat :=
  padField ("0") 8 ++ padField ("") 80 ++ padField ("") 80 ++
  padField ("01.01.24") 8 ++ padField ("00.00.00") 8 ++ padField ("512") 8 ++
  padField ("") 44 ++ padField ("1") 8 ++ padField ("1") 8 ++ padField ("1") 4 ++
  padField ("ECG") 16 ++ padField ("") 80 ++ padField ("mV") 8 ++
  padField ("-1.0") 8 ++ padField ("1.0") 8 ++ padField ("-100") 8 ++
  padField ("100") 8 ++ padField ("") 80 ++ padField ("0") 8 ++ padField ("") 32

/-- The header parsed from `exInputC3`. -/
def exHeaderC3 : EdfHeader := (read_header exInputC3).getD emptyHeader

/-- A header byte stream whose channel-count field parses to `0`: the
preamble alone is a complete header declaring no channels. -/
def exInputC10 : List Nat :=
  padField ("0") 8 ++ padField ("") 80 ++ padField ("") 80 ++
  padField ("01.01.24") 8 ++ padField ("00.00.00") 8 ++ padField ("256") 8 ++
  padField ("") 44 ++ padField ("1") 8 ++ padField ("1") 8 ++ padField ("0") 4

/-- The header parsed from `exInputC10`: no channels, all per-channel arrays
empty. -/
def exHeaderC10 : EdfHeader := (read_header exInputC10).getD emptyHeader

/-- A two-channel header declaring two records of two samples per channel,
with the sample data at offset 0. -/
def exHeaderC2 : EdfHeader :=
  { emptyHeader with
    signals := 2, data_records := 2, header_bytes := 0
    samples_per_record := [2, 2]
    digital_minimums := [0, 0], digital_maximums := [100, 100]
    physical_minimums := [0, 0], physical_maximums := [100, 100] }

/-- A truncated sample area for `exHeaderC2`: only five of the declared
eight 16-bit samples are present. -/
def exInputC2 : List Nat := [1, 0, 2, 0, 3, 0, 4, 0, 5, 0]

/-- A header record with positive record duration and a non-empty
samples-per-record vector. -/
def exHeaderC3W : EdfHeader :=
  { emptyHeader with record_duration := 1, samples_per_record := [360] }

/-- The default frame used by `getD` when stating per-index properties of
assembled frame lists. -/
def defaultSample : EcgSample :=
  { timestamp := 0, lead1 := 0, lead2 := 0, lead_v1 := 0, is_qrs := false }

/-- 1001 distinct candidate timestamps, enough to trip the `> 1000`
re-filter. -/
def exAnnC5 : List ℚ := (List.range 1001).map fun k => (k : ℚ)

/-- The physiologically plausible beat-to-beat gap the re-filter keeps:
the interval from the previously kept timestamp lies in [0.3 s, 2.0 s]. -/
def plausibleGap (a b : ℚ) : Prop := 3 / 10 ≤ b - a ∧ b - a ≤ 2

/-! # Theorems -/

set_option maxRecDepth 2000000
set_option maxHeartbeats 4000000

/-- C1: for every channel with non-zero digital range, `digital_to_physical`
maps a digital value `d` to
`physical_min + (d - digital_min) / (digital_max - digital_min) * (physical_max - physical_min)`,
so `digital_min` maps to `physical_min` and `digital_max` to `physical_max`;
for a channel with `digital_max == digital_min` every calibrated value is
exactly 0; and the section-8 synthetic file (digital range [-100, 100],
physical range [-1, 1], samples [-100, 0, 50, 100]) decodes end to end to
[-1, 0, 1/2, 1]. -/
theorem digital_to_physical_calibration :
    (∀ (h : EdfHeader) (i : Nat) (d : Int),
        h.digital_maximums.getD i 0 ≠ h.digital_minimums.getD i 0 →
          digital_to_physical h d i =
            h.physical_minimums.getD i 0 +
              ((d : ℚ) - (h.digital_minimums.getD i 0 : Int)) /
                  ((h.digital_maximums.getD i 0 : Int) - (h.digital_minimums.getD i 0 : Int)) *
                (h.physical_maximums.getD i 0 - h.physical_minimums.getD i 0))
    ∧ (∀ (h : EdfHeader) (i : Nat),
        h.digital_maximums.getD i 0 ≠ h.digital_minimums.getD i 0 →
          digital_to_physical h (h.digital_minimums.getD i 0) i =
            h.physical_minimums.getD i 0)
    ∧ (∀ (h : EdfHeader) (i : Nat),
        h.digital_maximums.getD i 0 ≠ h.digital_minimums.getD i 0 →
          digital_to_physical h (h.digital_maximums.getD i 0) i =
            h.physical_maximums.getD i 0)
    ∧ (∀ (h : EdfHeader) (i : Nat) (d : Int),
        h.digital_maximums.getD i 0 = h.digital_minimums.getD i 0 →
          digital_to_physical h d i = 0)
    ∧ decodePipeline exInputC1 = some [[-1], [0], [1 / 2], [1]] := by
  have hrange : ∀ (h : EdfHeader) (i : Nat),
      h.digital_maximums.getD i 0 ≠ h.digital_minimums.getD i 0 →
      ((h.digital_maximums.getD i 0 : Int) : ℚ) -
        ((h.digital_minimums.getD i 0 : Int) : ℚ) ≠ 0 := by
    intro h i hne h0
    exact hne (Int.cast_injective (sub_eq_zero.mp h0))
  refine ⟨?_, ?_, ?_, ?_, ?_⟩
  · intro h i d hne
    unfold digital_to_physical
    rw [if_neg (hrange h i hne)]
  · intro h i hne
    unfold digital_to_physical
    rw [if_neg (hrange h i hne)]
    simp
  · intro h i hne
    unfold digital_to_physical
    rw [if_neg (hrange h i hne)]
    rw [div_self (hrange h i hne)]
    ring
  · intro h i d heq
    unfold digital_to_physical
    rw [if_pos]
    rw [sub_eq_zero]
    exact_mod_cast heq
  · have hdmin : exHeaderC1.digital_minimums = [-100] := rfl
    have hdmax : exHeaderC1.digital_maximums = [100] := rfl
    have hpmin : exHeaderC1.physical_minimums = [(parseF64 [45, 49, 46, 48]).getD (-2048)] := rfl
    have hpmax : exHeaderC1.physical_maximums = [(parseF64 [49, 46, 48]).getD 2047] := rfl
    have hv1 : digital_to_physical exHeaderC1 (-100) 0 = -1 := by
      norm_num [digital_to_physical, hdmin, hdmax, hpmin, hpmax, parseF64, parseExpSuffix,
        digitsVal, isDigitByte, scalePow10, List.takeWhile, List.dropWhile]
    have hv2 : digital_to_physical exHeaderC1 0 0 = 0 := by
      norm_num [digital_to_physical, hdmin, hdmax, hpmin, hpmax, parseF64, parseExpSuffix,
        digitsVal, isDigitByte, scalePow10, List.takeWhile, List.dropWhile]
    have hv3 : digital_to_physical exHeaderC1 50 0 = 1 / 2 := by
      norm_num [digital_to_physical, hdmin, hdmax, hpmin, hpmax, parseF64, parseExpSuffix,
        digitsVal, isDigitByte, scalePow10, List.takeWhile, List.dropWhile]
    have hv4 : digital_to_physical exHeaderC1 100 0 = 1 := by
      norm_num [digital_to_physical, hdmin, hdmax, hpmin, hpmax, parseF64, parseExpSuffix,
        digitsVal, isDigitByte, scalePow10, List.takeWhile, List.dropWhile]
    have hpipe : decodePipeline exInputC1 =
        some [[digital_to_physical exHeaderC1 (-100) 0],
              [digital_to_physical exHeaderC1 0 0],
              [digital_to_physical exHeaderC1 50 0],
              [digital_to_physical exHeaderC1 100 0]] := rfl
    rw [hpipe, hv1, hv2, hv3, hv4]

/-- C1 witness: the calibration endpoints evaluated on the parsed section-8
header. -/
theorem digital_to_physical_calibration_witness :
    exHeaderC1.digital_maximums.getD 0 0 ≠ exHeaderC1.digital_minimums.getD 0 0 ∧
    digital_to_physical exHeaderC1 (exHeaderC1.digital_minimums.getD 0 0) 0 =
      exHeaderC1.physical_minimums.getD 0 0 :=
  ⟨by decide, digital_to_physical_calibration.2.1 exHeaderC1 0 (by decide)⟩

/-- C9: every header accepted by `read_header` carries exactly `signals`
entries in each of the ten per-channel arrays. -/
theorem read_header_array_lengths (input : List Nat) (h : EdfHeader)
    (hp : read_header input = some h) :
    h.signal_labels.length = h.signals ∧
    h.transducer_types.length = h.signals ∧
    h.physical_dimensions.length = h.signals ∧
    h.physical_minimums.length = h.signals ∧
    h.physical_maximums.length = h.signals ∧
    h.digital_minimums.length = h.signals ∧
    h.digital_maximums.length = h.signals ∧
    h.prefiltering.length = h.signals ∧
    h.samples_per_record.length = h.signals ∧
    h.reserved.length = h.signals := by
  simp only [read_header] at hp
  split at hp
  · cases hp
    refine ⟨?_, ?_, ?_, ?_, ?_, ?_, ?_, ?_, ?_, ?_⟩ <;> simp
  · cases hp

/-- C9 witness: the ten array lengths of the parsed section-8 header all
equal its channel count. -/
theorem read_header_array_lengths_witness :
    exHeaderC1.signal_labels.length = exHeaderC1.signals ∧
    exHeaderC1.transducer_types.length = exHeaderC1.signals ∧
    exHeaderC1.physical_dimensions.length = exHeaderC1.signals ∧
    exHeaderC1.physical_minimums.length = exHeaderC1.signals ∧
    exHeaderC1.physical_maximums.length = exHeaderC1.signals ∧
    exHeaderC1.digital_minimums.length = exHeaderC1.signals ∧
    exHeaderC1.digital_maximums.length = exHeaderC1.signals ∧
    exHeaderC1.prefiltering.length = exHeaderC1.signals ∧
    exHeaderC1.samples_per_record.length = exHeaderC1.signals ∧
    exHeaderC1.reserved.length = exHeaderC1.signals :=
  read_header_array_lengths exInputC1 exHeaderC1 rfl

/-- The frame count of the transposed output always equals the length of
channel 0's decoded sample list. -/
theorem transpose_samples_length (ss : List (List ℚ)) :
    (transpose_samples ss).length = (ss.headD []).length := by
  cases ss with
  | nil => simp [transpose_samples]
  | cons c rest =>
      by_cases hc : c.isEmpty
      · rw [List.isEmpty_iff] at hc
        simp [transpose_samples, hc]
      · simp [transpose_samples, hc]

/-- Every position of the transposed output beyond the end of its channel's
decoded list reads as the zero pad. -/
theorem transpose_samples_pad (ss : List (List ℚ)) (i j : Nat)
    (hj : (ss.getD j []).length ≤ i) :
    ((transpose_samples ss).getD i []).getD j 0 = 0 := by
  unfold transpose_samples
  split
  · simp
  · by_cases hi : i < (ss.headD []).length
    · have houter :
          ((List.range (ss.headD []).length).map fun sample_idx =>
              ss.map fun chan => chan.getD sample_idx 0).getD i [] =
            ss.map fun chan => chan.getD i 0 := by
        rw [List.getD_eq_getElem?_getD, List.getElem?_map, List.getElem?_range hi]
        rfl
      rw [houter]
      by_cases hjl : j < ss.length
      · have hinner : (ss.map fun chan => chan.getD i 0).getD j 0 =
            (ss.getD j []).getD i 0 := by
          rw [List.getD_eq_getElem?_getD, List.getElem?_map,
            List.getElem?_eq_getElem hjl]
          have hget : ss[j] = ss.getD j [] := by
            rw [List.getD_eq_getElem?_getD, List.getElem?_eq_getElem hjl]
            rfl
          rw [Option.map_some', Option.getD_some, hget]
        rw [hinner]
        exact List.getD_eq_default _ _ hj
      · push_neg at hjl
        exact List.getD_eq_default _ _ (by simpa using hjl)
    · push_neg at hi
      have houter0 :
          ((List.range (ss.headD []).length).map fun sample_idx =>
              ss.map fun chan => chan.getD sample_idx 0).getD i [] = [] :=
        List.getD_eq_default _ _ (by simpa using hi)
      rw [houter0]
      rfl

/-- C2: for every header with a non-empty samples-per-record vector and
every byte stream — in particular any stream whose sample area is shorter
than declared — `read_signals` returns `Ok`; the frame count of the
transposed output equals the number of samples actually decoded for channel
0 (not the declared record count); and any channel that ran out of samples
early is zero-padded at every frame index past its end. -/
theorem read_signals_truncation (h : EdfHeader) (input : List Nat)
    (hne : h.samples_per_record ≠ []) :
    read_signals h input = some (transpose_samples (sigChannels h input)) ∧
    (transpose_samples (sigChannels h input)).length =
      ((sigChannels h input).headD []).length ∧
    ∀ i j : Nat, ((sigChannels h input).getD j []).length ≤ i →
      ((transpose_samples (sigChannels h input)).getD i []).getD j 0 = 0 := by
  refine ⟨?_, transpose_samples_length _, fun i j hj => transpose_samples_pad _ i j hj⟩
  obtain ⟨a, t, hsp⟩ : ∃ a t, h.samples_per_record = a :: t := by
    cases hcase : h.samples_per_record with
    | nil => exact absurd hcase hne
    | cons a t => exact ⟨a, t, rfl⟩
  simp [read_signals, hsp]

/-- C2 witness: the two-channel header against the truncated five-sample
stream decodes without error, and the short channel 1 is zero-padded at
frame index 2. -/
theorem read_signals_truncation_witness :
    read_signals exHeaderC2 exInputC2 =
      some (transpose_samples (sigChannels exHeaderC2 exInputC2)) ∧
    ((transpose_samples (sigChannels exHeaderC2 exInputC2)).getD 2 []).getD 1 0 = 0 :=
  ⟨(read_signals_truncation exHeaderC2 exInputC2 (by decide)).1,
   (read_signals_truncation exHeaderC2 exInputC2 (by decide)).2.2 2 1 (by decide)⟩

/-- C10: a header whose channel-count field parses to 0 is accepted by
`read_header` with an empty samples-per-record vector, and `read_signals`
on it hits the out-of-bounds `samples_per_record[0]` (a panic, `none` in
the model) instead of producing a defined result. -/
theorem read_signals_zero_channel_panic :
    read_header exInputC10 = some exHeaderC10 ∧
    exHeaderC10.signals = 0 ∧
    exHeaderC10.samples_per_record = [] ∧
    read_signals exHeaderC10 exInputC10 = none :=
  ⟨rfl, rfl, rfl, rfl⟩

/-- C3 counterexample: a parsed header with `samples_per_record[0] = 0`
(non-positive) and positive record duration on which `get_sample_rate`
returns 0, not the claimed 360 default. -/
theorem get_sample_rate_zero_spr_counterexample :
    read_header exInputC3 = some exHeaderC3 ∧
    exHeaderC3.samples_per_record.headD 0 = 0 ∧
    0 < exHeaderC3.record_duration ∧
    get_sample_rate exHeaderC3 = 0 ∧ get_sample_rate exHeaderC3 ≠ 360 := by
  have hdur : exHeaderC3.record_duration = (parseF64 [49]).getD 1 := rfl
  have hdurv : exHeaderC3.record_duration = 1 := by
    rw [hdur]
    norm_num [parseF64, parseExpSuffix, digitsVal, isDigitByte, scalePow10]
  have hspr : exHeaderC3.samples_per_record = [0] := rfl
  have hrate : get_sample_rate exHeaderC3 = 0 := by
    unfold get_sample_rate
    rw [if_pos ⟨by rw [hdurv]; norm_num, by rw [hspr]; simp⟩, hspr, hdurv]
    norm_num
  refine ⟨rfl, rfl, by rw [hdurv]; norm_num, hrate, by rw [hrate]; norm_num⟩

/-- C3 amended: `get_sample_rate` returns `samples_per_record[0] /
record_duration` when the record duration is positive and the
samples-per-record vector non-empty, and the 360 default exactly when the
duration is non-positive or the vector is empty (a zero `samples_per_record[0]`
with positive duration yields 0, not the default). -/
theorem get_sample_rate_amended (h : EdfHeader) :
    (0 < h.record_duration ∧ h.samples_per_record ≠ [] →
      get_sample_rate h = (h.samples_per_record.headD 0 : ℚ) / h.record_duration) ∧
    (¬(0 < h.record_duration ∧ h.samples_per_record ≠ []) →
      get_sample_rate h = 360) := by
  unfold get_sample_rate
  constructor
  · intro hc
    rw [if_pos hc]
  · intro hc
    rw [if_neg hc]

/-- C3 witness: the division branch evaluated on a concrete header with
duration 1 and 360 samples per record. -/
theorem get_sample_rate_amended_witness :
    get_sample_rate exHeaderC3W =
      (exHeaderC3W.samples_per_record.headD 0 : ℚ) / exHeaderC3W.record_duration :=
  (get_sample_rate_amended exHeaderC3W).1 ⟨by decide, by decide⟩

/-- C4: the assembler produces exactly one frame per decoded sample index;
frame `i` has timestamp `i / SAMPLE_RATE`, its three leads are channels
0/1/2 of the decoded sample (0 when missing), and its event flag is true
iff some annotation timestamp is within 10 ms of the frame's timestamp. -/
theorem assembleFrames_per_index (sd : List (List ℚ)) (qrs : List ℚ) :
    (assembleFrames sd qrs).length = sd.length ∧
    ∀ i : Nat, i < sd.length →
      ((assembleFrames sd qrs).getD i defaultSample).timestamp = (i : ℚ) / SAMPLE_RATE ∧
      ((assembleFrames sd qrs).getD i defaultSample).lead1 = (sd.getD i []).getD 0 0 ∧
      ((assembleFrames sd qrs).getD i defaultSample).lead2 = (sd.getD i []).getD 1 0 ∧
      ((assembleFrames sd qrs).getD i defaultSample).lead_v1 = (sd.getD i []).getD 2 0 ∧
      (((assembleFrames sd qrs).getD i defaultSample).is_qrs = true ↔
        ∃ q ∈ qrs, |q - (i : ℚ) / SAMPLE_RATE| < 1 / 100) := by
  constructor
  · simp [assembleFrames]
  · intro i hi
    have hget : sd[i] = sd.getD i [] := by
      rw [List.getD_eq_getElem?_getD, List.getElem?_eq_getElem hi]
      rfl
    have hframe : (assembleFrames sd qrs).getD i defaultSample =
        { timestamp := (i : ℚ) / SAMPLE_RATE
          lead1 := (sd.getD i []).getD 0 0
          lead2 := (sd.getD i []).getD 1 0
          lead_v1 := (sd.getD i []).getD 2 0
          is_qrs := qrs.any fun qrs_time =>
            decide (|qrs_time - (i : ℚ) / SAMPLE_RATE| < 1 / 100) } := by
      unfold assembleFrames
      rw [List.getD_eq_getElem?_getD, List.getElem?_map, List.getElem?_enum,
        List.getElem?_eq_getElem hi]
      simp [hget]
    refine ⟨by rw [hframe], by rw [hframe], by rw [hframe], by rw [hframe], ?_⟩
    rw [hframe]
    simp only [List.any_eq_true, decide_eq_true_eq]

/-- C4 witness: a one-frame assembly from a single three-channel sample and
one annotation at time 0. -/
theorem assembleFrames_per_index_witness :
    (assembleFrames [[5, 6, 7]] [0]).length = 1 ∧
    ((assembleFrames [[5, 6, 7]] [0]).getD 0 defaultSample).timestamp =
      ((0 : Nat) : ℚ) / SAMPLE_RATE ∧
    ((assembleFrames [[5, 6, 7]] [0]).getD 0 defaultSample).lead1 =
      (([[5, 6, 7]] : List (List ℚ)).getD 0 []).getD 0 0 ∧
    (((assembleFrames [[5, 6, 7]] [0]).getD 0 defaultSample).is_qrs = true ↔
      ∃ q ∈ ([0] : List ℚ), |q - ((0 : Nat) : ℚ) / SAMPLE_RATE| < 1 / 100) :=
  ⟨(assembleFrames_per_index [[5, 6, 7]] [0]).1.trans (by rfl),
   ((assembleFrames_per_index [[5, 6, 7]] [0]).2 0 (by decide)).1,
   ((assembleFrames_per_index [[5, 6, 7]] [0]).2 0 (by decide)).2.1,
   ((assembleFrames_per_index [[5, 6, 7]] [0]).2 0 (by decide)).2.2.2.2⟩

/-- C6: the type-code classifier accepts exactly the closed beat set — the
numeric codes 1..12 and the thirteen ASCII beat letters; in particular the
code of `N` (78) is accepted and that of `X` (88) is rejected. -/
theorem is_qrs_annotation_closed_set :
    is_qrs_annotation 78 = true ∧ is_qrs_annotation 88 = false ∧
    ∀ c : Nat, c < 256 →
      ( is_qrs_annotation c = true ↔
        ((1 ≤ c ∧ c ≤ 12) ∨
          c ∈ [78, 76, 82, 65, 97, 74, 83, 86, 69, 106, 47, 102, 81])) :=
  ⟨rfl, rfl, by decide⟩

/-- C6 witness: the characterization evaluated at the byte 78, the code of
the letter `N`. -/
theorem is_qrs_annotation_closed_set_witness :
    (78 : Nat) < 256 ∧
    ( is_qrs_annotation 78 = true ↔
      ((1 ≤ (78 : Nat) ∧ (78 : Nat) ≤ 12) ∨
        (78 : Nat) ∈ [78, 76, 82, 65, 97, 74, 83, 86, 69, 106, 47, 102, 81])) :=
  ⟨by decide, is_qrs_annotation_closed_set.2.2 78 (by decide)⟩

/-- C7: every reachable state of the playback window holds at most
`MAX_SAMPLES = 3600` frames; an append at capacity drops exactly the front
(oldest) frame and then appends at the back, an append below capacity only
appends at the back, and the capacity bound is preserved by every append. -/
theorem playback_window_capacity :
    (∀ w : List EcgSample, ReachableWindow w → w.length ≤ MAX_SAMPLES) ∧
    (∀ (w : List EcgSample) (s : EcgSample), w.length = MAX_SAMPLES →
        appendSample w s = w.drop 1 ++ [s]) ∧
    (∀ (w : List EcgSample) (s : EcgSample), w.length < MAX_SAMPLES →
        appendSample w s = w ++ [s]) ∧
    (∀ (w : List EcgSample) (s : EcgSample), ReachableWindow w →
        (appendSample w s).length ≤ MAX_SAMPLES) ∧
    MAX_SAMPLES = 3600 := by
  have hms : MAX_SAMPLES = 3600 := by
    unfold MAX_SAMPLES
    rw [show SAMPLE_RATE * DISPLAY_SECONDS = (3600 : ℚ) by
      norm_num [SAMPLE_RATE, DISPLAY_SECONDS]]
    decide
  have hinv : ∀ w : List EcgSample, ReachableWindow w → w.length ≤ MAX_SAMPLES := by
    intro w hw
    induction hw with
    | init => simp
    | step w s _ ih =>
        unfold appendSample
        by_cases hc : MAX_SAMPLES ≤ w.length
        · rw [if_pos hc]
          rw [List.length_append, List.length_drop, List.length_singleton]
          rw [hms] at ih hc ⊢
          omega
        · rw [if_neg hc]
          rw [List.length_append, List.length_singleton]
          rw [hms] at hc ⊢
          omega
  refine ⟨hinv, ?_, ?_, fun w s hw => hinv _ (ReachableWindow.step w s hw), hms⟩
  · intro w s hlen
    unfold appendSample
    rw [if_pos (le_of_eq hlen.symm)]
  · intro w s hlen
    unfold appendSample
    rw [if_neg (not_le.mpr hlen)]

/-- C7 witness: the empty start state satisfies the bound and an append on a
below-capacity window is a plain push at the back. -/
theorem playback_window_capacity_witness :
    ([] : List EcgSample).length ≤ MAX_SAMPLES ∧
    appendSample [] defaultSample = [] ++ [defaultSample] :=
  ⟨playback_window_capacity.1 [] ReachableWindow.init,
   playback_window_capacity.2.2.1 [] defaultSample
     (by rw [playback_window_capacity.2.2.2.2]; norm_num)⟩

/-- The re-filter loop never changes the head of the kept list. -/
theorem refilterLoop_head (rest : List ℚ) :
    ∀ filtered : List ℚ, filtered ≠ [] →
      (refilterLoop rest filtered).head? = filtered.head? := by
  induction rest with
  | nil => intro f _; rfl
  | cons t r ih =>
      intro f hf
      unfold refilterLoop
      cases hl : f.getLast? with
      | none => exact ih f hf
      | some last_time =>
          dsimp only
          by_cases hg : 3 / 10 ≤ t - last_time ∧ t - last_time ≤ 2
          · rw [if_pos hg, ih (f ++ [t]) (by simp)]
            cases f with
            | nil => exact absurd rfl hf
            | cons a f0 => rfl
          · rw [if_neg hg]
            exact ih f hf

/-- The re-filter loop preserves the plausible-gap chain invariant: every
pushed timestamp has a gap in [0.3, 2.0] from the last kept one. -/
theorem refilterLoop_chain (rest : List ℚ) :
    ∀ filtered : List ℚ, filtered ≠ [] →
      List.Chain' plausibleGap filtered →
      List.Chain' plausibleGap (refilterLoop rest filtered) := by
  induction rest with
  | nil => intro f _ hch; exact hch
  | cons t r ih =>
      intro f hf hch
      unfold refilterLoop
      cases hl : f.getLast? with
      | none => exact ih f hf hch
      | some last_time =>
          dsimp only
          by_cases hg : 3 / 10 ≤ t - last_time ∧ t - last_time ≤ 2
          · rw [if_pos hg]
            refine ih (f ++ [t]) (by simp) ?_
            rw [List.chain'_append]
            refine ⟨hch, List.chain'_singleton t, ?_⟩
            intro x hx y hy
            rw [hl, Option.mem_some_iff] at hx
            simp only [List.head?_cons, Option.mem_some_iff] at hy
            subst hx
            subst hy
            exact hg
          · rw [if_neg hg]
            exact ih f hf hch

/-- C5: the heuristic scanner is the composition of window scan, sort,
1 ms dedup and the filter stage; whenever more than 1000 deduplicated
candidates survive, the filter stage is exactly the greedy re-filter, whose
result starts at the first candidate and whose consecutive kept timestamps
always differ by an interval in [0.3 s, 2.0 s]; at each step a candidate is
kept iff its gap from the previously kept timestamp lies in [0.3, 2.0],
and dropped (excluded) otherwise. -/
theorem alternative_format_interval_refilter :
    (∀ (contents : List Nat) (res : ℚ),
        parse_alternative_format contents res =
          altFilterStage (dedupBy (sortAsc (scanCandidates res contents))))
    ∧ (∀ ann : List ℚ, 1000 < ann.length →
        altFilterStage ann = refilter ann ∧
        (refilter ann).head? = ann.head? ∧
        List.Chain' plausibleGap (refilter ann))
    ∧ (∀ (time : ℚ) (rest filtered : List ℚ) (last_time : ℚ),
        filtered.getLast? = some last_time →
          refilterLoop (time :: rest) filtered =
            if 3 / 10 ≤ time - last_time ∧ time - last_time ≤ 2 then
              refilterLoop rest (filtered ++ [time])
            else refilterLoop rest filtered) := by
  refine ⟨fun c r => rfl, ?_, ?_⟩
  · intro ann hlen
    obtain ⟨a, t, rfl⟩ : ∃ a t, ann = a :: t := by
      cases ann with
      | nil => simp at hlen
      | cons a t => exact ⟨a, t, rfl⟩
    have href_head : (refilter (a :: t)).head? = some a := by
      unfold refilter
      exact (refilterLoop_head t [a] (by simp)).trans rfl
    have hne : refilter (a :: t) ≠ [] := by
      intro h0
      rw [h0] at href_head
      cases href_head
    refine ⟨?_, by rw [href_head]; rfl, ?_⟩
    · simp only [altFilterStage]
      rw [if_pos hlen, if_neg (by simpa [List.isEmpty_iff] using hne)]
    · unfold refilter
      exact refilterLoop_chain t [a] (by simp) (List.chain'_singleton a)
  · intro time rest filtered last_time hl
    conv_lhs => rw [refilterLoop]
    rw [hl]

/-- C5 witness: 1001 distinct candidates trip the re-filter, which then
starts at the first candidate and satisfies the interval chain. -/
theorem alternative_format_interval_refilter_witness :
    1000 < exAnnC5.length ∧
    (altFilterStage exAnnC5 = refilter exAnnC5 ∧
     (refilter exAnnC5).head? = exAnnC5.head? ∧
     List.Chain' plausibleGap (refilter exAnnC5)) :=
  ⟨by decide, alternative_format_interval_refilter.2.1 exAnnC5 (by decide)⟩

/-- The synthetic fallback value is clamped into the 65..90 band before the
`as i32` truncation, so the returned integer always lies in [65, 90],
whatever the two wall-clock trigonometric terms evaluate to. -/
theorem fallbackRate_bounds (breathing_effect random_variation : ℚ) :
    65 ≤ fallbackRate breathing_effect random_variation ∧
    fallbackRate breathing_effect random_variation ≤ 90 := by
  unfold fallbackRate truncToInt
  have hy1 : (65 : ℚ) ≤ min (max (76 + breathing_effect + random_variation) 65) 90 :=
    le_min (le_max_right _ _) (by norm_num)
  have hy2 : min (max (76 + breathing_effect + random_variation) 65) 90 ≤ 90 :=
    min_le_right _ _
  rw [if_pos (le_trans (by norm_num) hy1)]
  constructor
  · exact Int.le_floor.mpr (by exact_mod_cast hy1)
  · calc ⌊min (max (76 + breathing_effect + random_variation) 65) 90⌋
        ≤ ⌊(90 : ℚ)⌋ := Int.floor_le_floor hy2
      _ = 90 := by norm_num

/-- C8: with exactly two recorded beat timestamps 1.0 s apart (both within
the 10 s retention window of the current wall-clock time) and no new frames
to scan, the estimator reports exactly 60 bpm, the rounding of `60 /
average_interval`; with zero or one recorded timestamp the synthetic
fallback always lies in the band [65, 90]. -/
theorem calculate_heart_rate_spec :
    (∀ current_time breathing_effect random_variation t1 t2 : ℚ,
        (t2 - t1 = 1 ∨ t1 - t2 = 1) →
        current_time - t1 < 10 → current_time - t2 < 10 →
        (calculate_heart_rate current_time breathing_effect random_variation
            [] [t1, t2]).2 = 60) ∧
    (∀ (current_time breathing_effect random_variation : ℚ) (st : List ℚ),
        st.length ≤ 1 →
        65 ≤ (calculate_heart_rate current_time breathing_effect random_variation
            [] st).2 ∧
        (calculate_heart_rate current_time breathing_effect random_variation
            [] st).2 ≤ 90) := by
  constructor
  · intro ct b r t1 t2 hd h1 h2
    have hscan : scanQrsTimes ct [] [t1, t2] = [t1, t2] := rfl
    have hfil : ([t1, t2].filter fun t => decide (ct - t < 10)) = [t1, t2] :=
      List.filter_eq_self.mpr (by
        intro a ha
        simp only [List.mem_cons, List.not_mem_nil, or_false] at ha
        rcases ha with rfl | rfl
        · exact decide_eq_true h1
        · exact decide_eq_true h2)
    simp only [calculate_heart_rate, hscan, hfil]
    rw [if_pos (by simp)]
    rcases hd with hd | hd
    · have hle : t1 ≤ t2 := by linarith
      have hsort : sortAsc [t1, t2] = [t1, t2] := by
        simp [sortAsc, List.insertionSort, List.orderedInsert, hle]
      rw [hsort]
      simp only [List.tail_cons, List.zip_cons_cons, List.zip_nil_right, List.map_cons,
        List.map_nil, List.isEmpty_cons, List.foldl_cons, List.foldl_nil,
        List.length_cons, List.length_nil]
      rw [if_neg (by simp)]
      rw [hd]
      norm_num [rustRound]
    · have hlt : ¬ t1 ≤ t2 := by
        intro hcon
        have : t1 - t2 ≤ 0 := by linarith
        rw [hd] at this
        norm_num at this
      have hsort : sortAsc [t1, t2] = [t2, t1] := by
        simp [sortAsc, List.insertionSort, List.orderedInsert, hlt]
      rw [hsort]
      simp only [List.tail_cons, List.zip_cons_cons, List.zip_nil_right, List.map_cons,
        List.map_nil, List.isEmpty_cons, List.foldl_cons, List.foldl_nil,
        List.length_cons, List.length_nil]
      rw [if_neg (by simp)]
      rw [hd]
      norm_num [rustRound]
  · intro ct b r st hlen
    have hscan : scanQrsTimes ct [] st = st := rfl
    have hflen : (st.filter fun t => decide (ct - t < 10)).length ≤ 1 :=
      le_trans (List.length_filter_le _ _) hlen
    simp only [calculate_heart_rate, hscan]
    rw [if_neg (not_le.mpr (Nat.lt_succ_of_le hflen))]
    exact fallbackRate_bounds b r

/-- C8 witness: beats at 0 s and 1 s seen at wall-clock 5 s give exactly
60 bpm, and a single recorded beat falls back into the band. -/
theorem calculate_heart_rate_spec_witness :
    (calculate_heart_rate 5 0 0 [] [0, 1]).2 = 60 ∧
    65 ≤ (calculate_heart_rate 5 0 0 [] [7]).2 ∧
    (calculate_heart_rate 5 0 0 [] [7]).2 ≤ 90 :=
  ⟨calculate_heart_rate_spec.1 5 0 0 0 1 (Or.inl (by norm_num)) (by norm_num)
     (by norm_num),
   (calculate_heart_rate_spec.2 5 0 0 [7] (by simp)).1,
   (calculate_heart_rate_spec.2 5 0 0 [7] (by simp)).2⟩

end EcgMonitor
